import Mathlib

/-!
Shallow embedding of the mediasocial-backend ingestion-and-aggregation core
(`src/index.ts`), together with theorems checking the natural-language
specification against it.

Conventions of the embedding:
* Strings from the TypeScript side are `String`; character-level parsing
  (the URL regex) works over `List Char` (`String.toList`).
* Timestamps (`recordedAt`) are `Nat`.
* The jsonb `statistics` column is modelled as a record of optional integer
  fields: `none` means the field is absent or non-numeric, so the JS
  extraction `parseInt(x) || 0` becomes `Option.getD · 0`.
* Fallible upstream calls (fetch + json) are oracles returning
  `Except Unit ·`; `.error` models a thrown exception.
* The Cloudflare KV cache holds a single well-known key
  (`channelStatistics`), so the cache state is an `Option CacheEntry`
  (entry value plus absolute expiry instant); the TTL semantics of `get`
  is modelled in `kvGet`.
-/

namespace Mediasocial

/-- One row of the `video_statistics` table (a statistics snapshot), with
the jsonb payload narrowed to the three counters the queries extract. -/
structure Snapshot where
  videoId : String
  likeCount : Option Int
  commentCount : Option Int
  viewCount : Option Int
  recordedAt : Nat
deriving DecidableEq, Repr

/-- One row of the `videos` table (only the columns the modelled queries read). -/
structure VideoRow where
  id : String
  channelId : String
  title : String
deriving DecidableEq, Repr

/-- One row of the `channels` table (only the columns the modelled queries read). -/
structure ChannelRow where
  id : String
  channelName : String
  followersCount : Int
  viewsCount : Int
deriving DecidableEq, Repr

/-- The relational store: the three tables of `db/schema.ts`. -/
structure DB where
  channels : List ChannelRow
  videos : List VideoRow
  stats : List Snapshot
deriving DecidableEq, Repr

/- ------------------------------------------------------------------ -/
/- `extractUsername` (src/index.ts lines 35-38)                        -/
/- ------------------------------------------------------------------ -/

/-- `\w` of the source regex (no unicode flag): ASCII letter, digit or underscore. -/
def isWordChar (c : Char) : Bool :=
  c.isAlpha || c.isDigit || c = '_'

/-- Character class `[\w-]` (the channel-id body of the regex). -/
def isIdChar (c : Char) : Bool :=
  isWordChar c || c = '-'

/-- Character class `[\w@-]` (the handle body of the regex). -/
def isHandleChar (c : Char) : Bool :=
  isWordChar c || c = '@' || c = '-'

/-- Trailing character set `[AQgw]` of the channel-id alternative. -/
def isTrailChar (c : Char) : Bool :=
  c = 'A' || c = 'Q' || c = 'g' || c = 'w'

/-- Drop the literal `p` from the front of `cs`; `none` if `cs` does not
start with `p`.  (The building block for matching the anchored regex.) -/
def dropLit : List Char → List Char → Option (List Char)
  | [], cs => some cs
  | _ :: _, [] => none
  | p :: ps, c :: cs => if c = p then dropLit ps cs else none

/-- The first alternative of regex group 2: `channel\/UC[\w-]{21}[AQgw]`,
anchored at the end of the input. -/
def channelFormB (rest : List Char) : Bool :=
  match dropLit "channel/UC".toList rest with
  | none => false
  | some core =>
      core.length = 22 && (core.take 21).all isIdChar && (core.drop 21).all isTrailChar

/-- The second alternative of regex group 2: `(c\/|user\/)?[\w@-]+`, anchored
at the end of the input.  The regex alternation is deterministic here: if
`c/` (or `user/`) is present it must be consumed, since the fallback
`[\w@-]+` cannot match the `/` it contains. -/
def handleFormB (rest : List Char) : Bool :=
  match dropLit "c/".toList rest with
  | some h => !h.isEmpty && h.all isHandleChar
  | none =>
    match dropLit "user/".toList rest with
    | some h => !h.isEmpty && h.all isHandleChar
    | none => !rest.isEmpty && rest.all isHandleChar

/-- Match of the full source regex
`^https?:\/\/(www\.)?youtube\.com\/(channel\/UC[\w-]{21}[AQgw]|(c\/|user\/)?[\w@-]+)$`
returning the content of group 2 (the whole tail after `youtube.com/`).
The two optional pieces (`s?` and `(www\.)?`) are deterministic: what must
follow them (`://` resp. `youtube.com/`) starts with a character distinct
from the optional piece's first character, so greedy consumption agrees
with the backtracking regex engine. -/
def matchGroup2 (rest : List Char) : Option (List Char) :=
  if channelFormB rest || handleFormB rest then some rest else none

/-- The part of the regex after the scheme: `(www\.)?youtube\.com\/` and
then group 2. -/
def matchHost (r3 : List Char) : Option (List Char) :=
  let r4 := match dropLit "www.".toList r3 with
    | some r => r
    | none => r3
  match dropLit "youtube.com/".toList r4 with
  | none => none
  | some rest => matchGroup2 rest

def matchUrl (cs : List Char) : Option (List Char) :=
  match dropLit "http".toList cs with
  | none => none
  | some r1 =>
    let r2 := match dropLit "s".toList r1 with
      | some r => r
      | none => r1
    match dropLit "://".toList r2 with
    | none => none
    | some r3 => matchHost r3

/-- Does the input start with `'@'` (the `input.startsWith('@')` test)? -/
def startsWithAt : List Char → Bool
  | '@' :: _ => true
  | _ => false

/-- `extractUsername` (src/index.ts line 35): a raw handle (leading `@`) is
returned unchanged; otherwise the URL regex is applied and group 2 is
returned; `none` models the `null` result. -/
def extractUsername (input : List Char) : Option (List Char) :=
  if startsWithAt input then some input else matchUrl input

/- Declarative grammar (the spec's words), for the refinement claim C9. -/

/-- Spec-side: the channel-id URL tail, `channel/UC` + 21 id characters +
one trailing character from the fixed set. -/
def ChannelIdTail (rest : List Char) : Prop :=
  ∃ core : List Char, rest = "channel/UC".toList ++ core ∧ core.length = 22 ∧
    (∀ c ∈ core.take 21, isIdChar c = true) ∧ (∀ c ∈ core.drop 21, isTrailChar c = true)

/-- Spec-side: the handle URL tail, an optional `c/` or `user/` marker
followed by a nonempty run of handle characters. -/
def HandleTail (rest : List Char) : Prop :=
  ∃ p h : List Char, (p = "c/".toList ∨ p = "user/".toList ∨ p = []) ∧
    rest = p ++ h ∧ h ≠ [] ∧ ∀ c ∈ h, isHandleChar c = true

/-- Spec-side: a recognized URL of the fixed grammar: scheme, optional
`www.`, the `youtube.com/` host, and one of the two tail forms. -/
def RecognizedUrl (s : List Char) : Prop :=
  ∃ scheme www rest : List Char,
    (scheme = "http://".toList ∨ scheme = "https://".toList) ∧
    (www = [] ∨ www = "www.".toList) ∧
    s = scheme ++ www ++ "youtube.com/".toList ++ rest ∧
    (ChannelIdTail rest ∨ HandleTail rest)

/- ------------------------------------------------------------------ -/
/- Quota accounting and the upstream client                            -/
/- ------------------------------------------------------------------ -/

/-- The quota-cost table `QUOTA_COSTS` (src/index.ts lines 14-19); only the
`list` costs are ever charged by the code. -/
structure QuotaCosts where
  channelsList : Nat
  playlistItemsList : Nat
  videosList : Nat
  searchList : Nat
deriving DecidableEq, Repr

def QUOTA_COSTS : QuotaCosts :=
  { channelsList := 1, playlistItemsList := 1, videosList := 1, searchList := 100 }

/-- One item of a playlist page (`VideoDetails` of the source). -/
structure VideoDetails where
  videoId : String
  videoTitle : String
  thumbnailUrl : Option String
deriving DecidableEq, Repr

/-- `getPlaylistVideos` (src/index.ts lines 41-60): the do/while pagination
loop, given the sequence of successfully fetched pages; it flattens the
pages' items and charges the playlist-list cost once per page (the charge
happens after each page's json is parsed). Returns (videos, quota charged). -/
def getPlaylistVideos (pages : List (List VideoDetails)) : List VideoDetails × Nat :=
  (pages.flatten, pages.length * QUOTA_COSTS.playlistItemsList)

/-- The id-list partition of `getVideoStatistics` (src/index.ts lines
104-108): the loop `for (i = 0; i < n; i += 50) slice(i, i + 50)` runs
`(n + 49) / 50` times (the ceiling of `n / 50`), and `slice(i, i + 50)` is
`(drop i).take 50`. -/
def chunkBatches (l : List String) : List (List String) :=
  (List.range ((l.length + 49) / 50)).map fun k => (l.drop (50 * k)).take 50

/-- Result of one statistics batch: the converted items, the log lines
emitted, and the quota charged. -/
structure BatchResult (σ : Type) where
  items : List σ
  logs : List String
  cost : Nat
deriving DecidableEq, Repr

/-- `fetchVideoStatisticsBatch` (src/index.ts lines 113-128): one batched
call through an oracle for `fetch` + `json`.  On success the videos-list
cost is charged once (independently of the batch size) and the items are
returned; a thrown error is caught, logged, and collapsed to an empty
result with no charge. -/
def fetchVideoStatisticsBatch {σ : Type} (oracle : List String → Except Unit (List σ))
    (videoIds : List String) : BatchResult σ :=
  match oracle videoIds with
  | .ok items => { items := items, logs := [], cost := QUOTA_COSTS.videosList }
  | .error _ =>
      { items := [], logs := ["Error fetching video statistics"], cost := 0 }

/-- `getVideoStatistics` (src/index.ts lines 103-110): partition the ids
into batches of 50, issue every batch (Promise.all: all are attempted and
results are kept in batch order), and flatten. -/
def getVideoStatistics {σ : Type} (oracle : List String → Except Unit (List σ))
    (videoIds : List String) : BatchResult σ :=
  let rs := (chunkBatches videoIds).map (fetchVideoStatisticsBatch oracle)
  { items := (rs.map (·.items)).flatten,
    logs := (rs.map (·.logs)).flatten,
    cost := (rs.map (·.cost)).sum }

/-- The `ChannelDetails` record of the source: every field is nullable. -/
structure ChannelDetails where
  uploads : Option String
  id : Option String
  customName : Option String
  followersCount : Option Int
  viewsCount : Option Int
  videoCount : Option Int
  thumbnailHighUrl : Option String
deriving DecidableEq, Repr

/-- The all-null `ChannelDetails` the source returns on an upstream error
or an empty item list. -/
def emptyChannelDetails : ChannelDetails :=
  { uploads := none, id := none, customName := none, followersCount := none,
    viewsCount := none, videoCount := none, thumbnailHighUrl := none }

/-- The upstream/persistence world one `/` request runs against. -/
structure IngestWorld where
  /-- `getChannelDetailsFromDB` outcome: a cached channel row, if any. -/
  dbChannel : Option ChannelDetails
  /-- The channels-list API call: `.error` = fetch/json threw (caught, no
  charge); `.ok none` = empty `items` (charged); `.ok (some d)` = found. -/
  apiChannel : Except Unit (Option ChannelDetails)
  /-- Playlist pagination: `.ok pages`, or `.error k` = a page fetch threw
  after `k` pages had been fetched and charged. -/
  pages : Except Nat (List (List VideoDetails))
  /-- The statistics batch oracle (`fetch` + `json` per batch). -/
  statsOracle : List String → Except Unit (List Snapshot)
  /-- Whether the three database writes (channel, videos, statistics) succeed. -/
  insertsOk : Bool

/-- `getUploadsChannelDetail` (src/index.ts lines 78-100): database first
(no charge), otherwise the API with the channels-list cost charged after a
successful json parse; errors and empty item lists give the all-null
record.  Returns (details, quota charged). -/
def getUploadsChannelDetail (w : IngestWorld) : ChannelDetails × Nat :=
  match w.dbChannel with
  | some d => (d, 0)
  | none =>
    match w.apiChannel with
    | .error _ => (emptyChannelDetails, 0)
    | .ok none => (emptyChannelDetails, QUOTA_COSTS.channelsList)
    | .ok (some d) => (d, QUOTA_COSTS.channelsList)

/-- JS truthiness of a nullable string: `null` and `""` are falsy. -/
def truthyStr : Option String → Bool
  | none => false
  | some s => !s.isEmpty

/-- JS truthiness of a nullable number: `null` and `0` are falsy. -/
def truthyInt : Option Int → Bool
  | none => false
  | some n => decide (n ≠ 0)

/-- The completeness guard of the `/` handler (src/index.ts line 1026):
`!id || !customName || !thumbnailHighUrl || !uploads || !followersCount ||
!videoCount || !viewsCount` rejects; this is the negation, i.e. the
condition under which ingestion proceeds. -/
def channelDetailsComplete (cd : ChannelDetails) : Bool :=
  truthyStr cd.id && truthyStr cd.customName && truthyStr cd.thumbnailHighUrl &&
    truthyStr cd.uploads && truthyInt cd.followersCount &&
    truthyInt cd.videoCount && truthyInt cd.viewsCount

/- ------------------------------------------------------------------ -/
/- The /statistics rollup and its KV cache                             -/
/- ------------------------------------------------------------------ -/

/-- One aggregated entry of the `/statistics` response. -/
structure ChannelRollup where
  channelId : String
  channelName : String
  followersCount : Int
  viewsCount : Int
  totalLikes : Int
  totalComments : Int
deriving DecidableEq, Repr

/-- One channel's rows in the `/statistics` join: a channel with no videos
yields one row with null video/statistics, a video with no snapshots one
row with null statistics, and otherwise one row per snapshot (the standard
nested-loop semantics of the two left joins). -/
def channelBlock (db : DB) (ch : ChannelRow) :
    List (ChannelRow × Option (VideoRow × Option Snapshot)) :=
  let vs := db.videos.filter fun v => v.channelId = ch.id
  if vs.isEmpty then [(ch, none)]
  else vs.flatMap fun v =>
    let ss := db.stats.filter fun s => s.videoId = v.id
    if ss.isEmpty then [(ch, some (v, none))]
    else ss.map fun s => (ch, some (v, some s))

/-- The triple join of the `/statistics` endpoint (src/index.ts lines
350-362): `channels LEFT JOIN videos LEFT JOIN video_statistics`. -/
def statisticsJoinRows (db : DB) : List (ChannelRow × Option (VideoRow × Option Snapshot)) :=
  db.channels.flatMap (channelBlock db)

/-- The parsed like count of a snapshot, `parseInt(stats.likeCount) || 0`. -/
def likeOf (s : Snapshot) : Int := s.likeCount.getD 0

/-- The parsed comment count of a snapshot, `parseInt(stats.commentCount) || 0`. -/
def commentOf (s : Snapshot) : Int := s.commentCount.getD 0

/-- The fresh zero-total rollup entry the loop inserts on first sight of a
channel (src/index.ts lines 370-379). -/
def zeroRollup (ch : ChannelRow) : ChannelRollup :=
  { channelId := ch.id, channelName := ch.channelName,
    followersCount := ch.followersCount, viewsCount := ch.viewsCount,
    totalLikes := 0, totalComments := 0 }

/-- `if (!channelStatisticsMap.has(...)) set(...)`: keep the accumulator if
the channel already has an entry, else append the zero entry (the JS Map
preserves insertion order). -/
def ensureEntry (acc : List ChannelRollup) (ch : ChannelRow) : List ChannelRollup :=
  if acc.any fun r => r.channelId = ch.id then acc else acc ++ [zeroRollup ch]

/-- The `totalLikes += / totalComments +=` update of the channel's entry
(src/index.ts lines 390-391), applied to one accumulator entry. -/
def bumpRollup (ch : ChannelRow) (s : Snapshot) (r : ChannelRollup) : ChannelRollup :=
  if r.channelId = ch.id then
    { r with totalLikes := r.totalLikes + likeOf s,
             totalComments := r.totalComments + commentOf s }
  else r

/-- One step of the `allData.forEach` aggregation loop (src/index.ts lines
367-393): ensure the channel has an entry, then, if the row carries a
statistics payload, add its parsed like/comment counts. -/
def applyStatisticsRow (acc : List ChannelRollup)
    (row : ChannelRow × Option (VideoRow × Option Snapshot)) : List ChannelRollup :=
  let acc' := ensureEntry acc row.1
  match row.2 with
  | some (_, some s) => acc'.map (bumpRollup row.1 s)
  | _ => acc'

/-- The computed payload of the `/statistics` endpoint (src/index.ts lines
350-396): the aggregation map over all join rows, in insertion order. -/
def channelStatistics (db : DB) : List ChannelRollup :=
  (statisticsJoinRows db).foldl applyStatisticsRow []

/-- A KV cache entry for the `channelStatistics` key: the stored rollup
and the absolute instant at which the TTL expires. -/
structure CacheEntry where
  data : List ChannelRollup
  expiresAt : Nat
deriving DecidableEq, Repr

/-- KV `get` with TTL semantics at instant `now`: the value if present and
unexpired, otherwise nothing. -/
def kvGet (cache : Option CacheEntry) (now : Nat) : Option (List ChannelRollup) :=
  match cache with
  | some e => if now < e.expiresAt then some e.data else none
  | none => none

/-- Result of the `/statistics` endpoint: payload, `source` tag, cache
state after the request, and whether the relational store was read. -/
structure StatisticsResult where
  data : List ChannelRollup
  source : String
  cache : Option CacheEntry
  storeRead : Bool
deriving DecidableEq, Repr

/-- The `/statistics` endpoint (src/index.ts lines 333-419): serve the KV
value verbatim with `source: 'cache'` when present, otherwise compute the
rollup from the store, cache it with `expirationTtl: 3600`, and serve it
with `source: 'database'`. -/
def statisticsGet (db : DB) (cache : Option CacheEntry) (now : Nat) : StatisticsResult :=
  match kvGet cache now with
  | some d => { data := d, source := "cache", cache := cache, storeRead := false }
  | none =>
      let r := channelStatistics db
      { data := r, source := "database",
        cache := some { data := r, expiresAt := now + 3600 }, storeRead := true }

/- ------------------------------------------------------------------ -/
/- Latest-snapshot resolution and the top-N queries                    -/
/- ------------------------------------------------------------------ -/

/-- The `latestVideoStatistics` subquery (src/index.ts lines 720-727):
`MAX(recorded_at)` of the snapshot group of one video (0 when the group is
empty; an empty group produces no subquery row, and the main query's
filter is unsatisfiable for it either way). -/
def latestRecordedAt (db : DB) (vid : String) : Nat :=
  (((db.stats.filter fun s => s.videoId = vid).map (·.recordedAt))).foldr Nat.max 0

/-- The snapshot rows the top-N main queries keep for one video: the join
plus `WHERE` condition `videoId = latest.videoId AND recordedAt =
latest.latestRecordedAt` (src/index.ts lines 747-750). -/
def selectedSnapshots (db : DB) (vid : String) : List Snapshot :=
  db.stats.filter fun s => s.videoId = vid && s.recordedAt = latestRecordedAt db vid

/-- One row of a top-N response (videoId, joined channel name, title, and
the extracted metric). -/
structure TopRow where
  videoId : String
  channelName : Option String
  title : String
  metric : Int
deriving DecidableEq, Repr

/-- The unsorted row set of a top-N query (src/index.ts lines 730-750):
`FROM videos LEFT JOIN video_statistics ... WHERE` the latest-snapshot
condition — the `WHERE` on left-joined columns keeps exactly the
(video, snapshot) pairs whose snapshot attains the group maximum, and
`COALESCE(CAST(statistics->>field AS INTEGER), 0)` is the metric.
`field` selects `viewCount`, `likeCount` or `commentCount`. -/
def topRowsBy (db : DB) (field : Snapshot → Option Int) : List TopRow :=
  db.videos.flatMap fun v =>
    (selectedSnapshots db v.id).map fun s =>
      { videoId := v.id,
        channelName := (db.channels.find? fun ch => ch.id = v.channelId).map (·.channelName),
        title := v.title,
        metric := (field s).getD 0 }

/-- A top-N endpoint (src/index.ts lines 712-766 and its two clones):
order by the metric descending and truncate to `limit`. -/
def topQuery (db : DB) (field : Snapshot → Option Int) (limit : Nat) : List TopRow :=
  ((topRowsBy db field).mergeSort fun a b => b.metric ≤ a.metric).take limit

/-- The `/channels/:id` per-channel query (src/index.ts lines 288-302):
all videos of the channel, each paired with its full snapshot list (the
statistics are pre-filtered by the channel's video-id set, then matched
per video). -/
def channelVideosWithStats (db : DB) (cid : String) : List (VideoRow × List Snapshot) :=
  let allVideos := db.videos.filter fun v => v.channelId = cid
  let videoIds := allVideos.map (·.id)
  let allStats := db.stats.filter fun s => videoIds.contains s.videoId
  allVideos.map fun v => (v, allStats.filter fun s => s.videoId = v.id)

/- ------------------------------------------------------------------ -/
/- The refresh scheduler                                               -/
/- ------------------------------------------------------------------ -/

/-- `refreshChannelDetails` (src/index.ts lines 131-154): fetch the
channel by id through an oracle; `.ok (some _)` updates the row and
succeeds, `.ok none` only warns and succeeds, and a thrown error is
logged and re-thrown (`throw error`). -/
def refreshChannelDetails (oracle : String → Except Unit (Option ChannelDetails))
    (channelId : String) : Except Unit Unit :=
  match oracle channelId with
  | .error e => .error e
  | .ok _ => .ok ()

/-- `Promise.all` value semantics: the list of all results if every
promise fulfills, otherwise a rejection (every unit still runs; only the
combined outcome collapses to the error). -/
def promiseAll {ε α : Type} : List (Except ε α) → Except ε (List α)
  | [] => .ok []
  | .error e :: _ => .error e
  | .ok a :: rest => (promiseAll rest).map (a :: ·)

/-- `refreshAllChannelDetails` (src/index.ts lines 157-164): refresh every
known channel (pLimit(5) bounds concurrency but not the outcome) and
combine with `Promise.all`; on success the handler gets the plain
channel list back, not per-channel outcomes. -/
def refreshAllChannelDetails (oracle : String → Except Unit (Option ChannelDetails))
    (allChannels : List (String × String)) : Except Unit (List (String × String)) :=
  (promiseAll (allChannels.map fun ch => refreshChannelDetails oracle ch.1)).map
    fun _ => allChannels

/- ------------------------------------------------------------------ -/
/- The `/` ingestion handler                                           -/
/- ------------------------------------------------------------------ -/

/-- The observable outcome of one `/` request: HTTP status, response
text/marker, the KV cache state afterwards, the final value of
`totalQuotaUsed`, and whether the snapshot append was performed. -/
structure HandlerResponse where
  status : Nat
  body : String
  cache : Option CacheEntry
  quota : Nat
  appended : Bool
deriving DecidableEq, Repr

/-- The `/` ingestion handler (src/index.ts lines 1014-1059).
`q0` is the incoming value of the global `totalQuotaUsed`; the first
statement of the handler resets it to zero, so `q0` is discarded.  The
steps, in source order: missing `url` parameter → 400; unresolvable
identifier → 400; incomplete channel details → 400; playlist pagination
(with its quota) — a thrown page fetch reaches the outer catch → 500;
empty video list → 200 text (before any write, cache untouched);
statistics batches (with their quota); the three inserts — a persistence
failure reaches the outer catch → 500 (cache untouched); the
`channelStatistics` cache key is deleted; 200 JSON. -/
def ingestHandler (w : IngestWorld) (urlParam : Option (List Char))
    (cache : Option CacheEntry) (q0 : Nat) : HandlerResponse :=
  -- `q0`, the incoming global `totalQuotaUsed`, is discarded: line 1015
  -- resets the counter to zero before any charge.
  match urlParam with
  | none => { status := 400, body := "URL or username is missing",
              cache := cache, quota := 0, appended := false }
  | some url =>
    match extractUsername url with
    | none => { status := 400,
                body := "Invalid input (either a YouTube URL or a username is required)",
                cache := cache, quota := 0, appended := false }
    | some _ =>
      let cdq := getUploadsChannelDetail w
      if !channelDetailsComplete cdq.1 then
        { status := 400,
          body := "Invalid input (either a YouTube URL or a username is required)",
          cache := cache, quota := cdq.2, appended := false }
      else
        match w.pages with
        | .error k => { status := 500, body := "Internal Server Error", cache := cache,
                        quota := cdq.2 + k * QUOTA_COSTS.playlistItemsList, appended := false }
        | .ok pages =>
          let pv := getPlaylistVideos pages
          let q2 := cdq.2 + pv.2
          if pv.1.isEmpty then
            { status := 200, body := "No videos found in the playlist.",
              cache := cache, quota := q2, appended := false }
          else
            let ids := pv.1.map (·.videoId)
            let st := getVideoStatistics w.statsOracle ids
            let q3 := q2 + st.cost
            if w.insertsOk then
              { status := 200, body := "200 OK", cache := none, quota := q3, appended := true }
            else
              { status := 500, body := "Internal Server Error", cache := cache,
                quota := q3, appended := false }

/- ------------------------------------------------------------------ -/
/- Concrete data used by counterexamples and witnesses                 -/
/- ------------------------------------------------------------------ -/

/-- A sample channel row. -/
def exChannel : ChannelRow :=
  { id := "c1", channelName := "chan", followersCount := 7, viewsCount := 9 }

/-- A sample video row owned by `exChannel`. -/
def exVideo : VideoRow := { id := "v1", channelId := "c1", title := "t" }

/-- A snapshot of `exVideo` with the given like count and instant. -/
def mkSnap (likes : Int) (t : Nat) : Snapshot :=
  { videoId := "v1", likeCount := some likes, commentCount := some 1,
    viewCount := some 5, recordedAt := t }

/-- A store where `exVideo` has two snapshots: likes 10 at t=1 and likes 30
at t=3 (the latest one reports 30). -/
def dbHistory : DB :=
  { channels := [exChannel], videos := [exVideo], stats := [mkSnap 10 1, mkSnap 30 3] }

/-- A store where `exVideo` has two snapshots sharing `recordedAt` = 5. -/
def dbTie : DB :=
  { channels := [exChannel], videos := [exVideo], stats := [mkSnap 10 5, mkSnap 30 5] }

/-- A store where `exVideo` has no snapshot at all. -/
def dbNoSnap : DB :=
  { channels := [exChannel], videos := [exVideo], stats := [] }

/- ------------------------------------------------------------------ -/
/- C8: statistics batching and per-batch failure isolation             -/
/- ------------------------------------------------------------------ -/

lemma chunkBatches_length (l : List String) :
    (chunkBatches l).length = (l.length + 49) / 50 := by
  simp [chunkBatches]

lemma chunkBatches_size (l : List String) : ∀ b ∈ chunkBatches l, b.length ≤ 50 := by
  intro b hb
  simp only [chunkBatches, List.mem_map] at hb
  obtain ⟨k, -, rfl⟩ := hb
  exact List.length_take_le 50 _

lemma chunkBatches_flatten (l : List String) : (chunkBatches l).flatten = l := by
  have key : ∀ n : Nat,
      ((List.range n).map fun k => (l.drop (50 * k)).take 50).flatten = l.take (50 * n) := by
    intro n
    induction n with
    | zero => simp
    | succ m ih =>
        rw [List.range_succ, List.map_append, List.flatten_append, ih]
        have : 50 * (m + 1) = 50 * m + 50 := by ring
        rw [this, List.take_add]
        simp
  rw [chunkBatches, key]
  exact List.take_of_length_le (by omega)

lemma fetchBatch_items (oracle : List String → Except Unit (List Snapshot))
    (b : List String) :
    (fetchVideoStatisticsBatch oracle b).items = (oracle b).toOption.getD [] := by
  unfold fetchVideoStatisticsBatch
  cases oracle b <;> rfl

lemma batchCost_sum (oracle : List String → Except Unit (List Snapshot))
    (bs : List (List String)) :
    ((bs.map fun b => (fetchVideoStatisticsBatch oracle b).cost)).sum =
      (bs.countP fun b => (oracle b).isOk) * QUOTA_COSTS.videosList := by
  induction bs with
  | nil => rfl
  | cons b rest ih =>
      simp only [List.map_cons, List.sum_cons, List.countP_cons, ih]
      unfold fetchVideoStatisticsBatch
      cases h : oracle b <;> simp [Except.isOk, Except.toBool, QUOTA_COSTS] <;> omega

lemma batchLogs_length (oracle : List String → Except Unit (List Snapshot))
    (bs : List (List String)) :
    ((bs.map fun b => (fetchVideoStatisticsBatch oracle b).logs)).flatten.length =
      bs.countP fun b => !(oracle b).isOk := by
  induction bs with
  | nil => rfl
  | cons b rest ih =>
      simp only [List.map_cons, List.flatten_cons, List.length_append, ih, List.countP_cons]
      unfold fetchVideoStatisticsBatch
      cases h : oracle b <;> simp [Except.isOk, Except.toBool] <;> omega

/-- Claim C8 (confirmed): `getVideoStatistics` partitions the id list in
order into `ceil(n/50)` batches of size at most 50; a failed batch
contributes an empty partial result (and one log line) to the flattened
output while every other batch's contribution is exactly the oracle's
answer for it; the function always returns a plain list, so a batch
failure is never escalated to the caller. -/
theorem c8_batchingAndIsolation (ids : List String)
    (oracle : List String → Except Unit (List Snapshot)) :
    (chunkBatches ids).length = (ids.length + 49) / 50 ∧
    (∀ b ∈ chunkBatches ids, b.length ≤ 50) ∧
    (chunkBatches ids).flatten = ids ∧
    (getVideoStatistics oracle ids).items =
      ((chunkBatches ids).map fun b => (oracle b).toOption.getD []).flatten ∧
    (∀ b e, oracle b = .error e →
      (fetchVideoStatisticsBatch oracle b).items = [] ∧
        (fetchVideoStatisticsBatch oracle b).logs.length = 1) ∧
    (getVideoStatistics oracle ids).logs.length =
      ((chunkBatches ids).countP fun b => !(oracle b).isOk) := by
  refine ⟨chunkBatches_length ids, chunkBatches_size ids, chunkBatches_flatten ids, ?_, ?_, ?_⟩
  · simp only [getVideoStatistics, List.map_map, Function.comp]
    exact congrArg List.flatten
      (List.map_congr_left fun b _ => fetchBatch_items oracle b)
  · intro b e he
    unfold fetchVideoStatisticsBatch
    rw [he]
    exact ⟨rfl, rfl⟩
  · simp only [getVideoStatistics, List.map_map, Function.comp]
    exact batchLogs_length oracle (chunkBatches ids)

/-- A failing oracle: every batch of exactly 50 ids fails, smaller ones
succeed with an empty item list. -/
def failingOracle : List String → Except Unit (List Snapshot) :=
  fun b => if b.length = 50 then .error () else .ok []

/-- 101 identical ids: three batches (50, 50, 1). -/
def ids101 : List String := List.replicate 101 "v"

/-- Witness for C8: the theorem applied to 101 ids and an oracle that
fails the full batches: 3 batches, flattening restores the input, and
exactly 2 failures are logged. -/
theorem c8_witness :
    (chunkBatches ids101).length = 3 ∧
    (chunkBatches ids101).flatten = ids101 ∧
    (getVideoStatistics failingOracle ids101).logs.length = 2 := by
  refine ⟨?_, (c8_batchingAndIsolation ids101 failingOracle).2.2.1, ?_⟩
  · rw [(c8_batchingAndIsolation ids101 failingOracle).1]
    decide
  · rw [(c8_batchingAndIsolation ids101 failingOracle).2.2.2.2.2]
    decide

/- ------------------------------------------------------------------ -/
/- C2: refreshAll outcome semantics                                    -/
/- ------------------------------------------------------------------ -/

lemma promiseAll_ok_of_forall {ε α : Type} (rs : List (Except ε α))
    (h : ∀ r ∈ rs, ∃ v, r = .ok v) : ∃ vs, promiseAll rs = .ok vs := by
  induction rs with
  | nil => exact ⟨[], rfl⟩
  | cons r rest ih =>
      obtain ⟨v, hv⟩ := h r (by simp)
      subst hv
      obtain ⟨vs, hvs⟩ := ih fun x hx => h x (by simp [hx])
      exact ⟨v :: vs, by simp [promiseAll, hvs, Except.map]⟩

lemma promiseAll_error_of_exists {ε α : Type} (rs : List (Except ε α))
    (h : ∃ r ∈ rs, ∃ e, r = .error e) : ∃ e, promiseAll rs = .error e := by
  induction rs with
  | nil => simp at h
  | cons r rest ih =>
      match r, h with
      | .error e, _ => exact ⟨e, rfl⟩
      | .ok a, h =>
          have hrest : ∃ r ∈ rest, ∃ e, r = .error e := by
            obtain ⟨r', hr', e, he⟩ := h
            rcases List.mem_cons.mp hr' with h1 | h1
            · rw [h1] at he; cases he
            · exact ⟨r', h1, e, he⟩
          obtain ⟨e, he⟩ := ih hrest
          exact ⟨e, by simp [promiseAll, he, Except.map]⟩

/-- Claim C2 (corrected): `refreshAllChannelDetails` does not report
per-channel outcomes.  When every channel's upstream call succeeds it
returns the plain channel list; as soon as any channel's call fails, the
`Promise.all` combination rejects, so the whole call throws instead of
returning 10 outcomes. -/
theorem c2_refreshAllOutcome (oracle : String → Except Unit (Option ChannelDetails))
    (chans : List (String × String)) :
    ((∀ ch ∈ chans, ∃ v, oracle ch.1 = .ok v) →
        refreshAllChannelDetails oracle chans = .ok chans) ∧
    ((∃ ch ∈ chans, ∃ e, oracle ch.1 = .error e) →
        ∃ e, refreshAllChannelDetails oracle chans = .error e) := by
  constructor
  · intro h
    have hall : ∀ r ∈ chans.map fun ch => refreshChannelDetails oracle ch.1,
        ∃ v, r = .ok v := by
      intro r hr
      obtain ⟨ch, hch, rfl⟩ := List.mem_map.mp hr
      obtain ⟨v, hv⟩ := h ch hch
      exact ⟨(), by simp [refreshChannelDetails, hv]⟩
    obtain ⟨vs, hvs⟩ := promiseAll_ok_of_forall
        (chans.map fun ch => refreshChannelDetails oracle ch.1) hall
    simp [refreshAllChannelDetails, hvs, Except.map]
  · intro h
    obtain ⟨ch, hch, e, he⟩ := h
    obtain ⟨e', he'⟩ := promiseAll_error_of_exists
        (chans.map fun ch => refreshChannelDetails oracle ch.1)
        ⟨refreshChannelDetails oracle ch.1, List.mem_map_of_mem _ hch,
          e, by simp [refreshChannelDetails, he]⟩
    exact ⟨e', by simp [refreshAllChannelDetails, he', Except.map]⟩

/-- Ten known channels. -/
def channels10 : List (String × String) :=
  [("ch1", "n1"), ("ch2", "n2"), ("ch3", "n3"), ("ch4", "n4"), ("ch5", "n5"),
   ("ch6", "n6"), ("ch7", "n7"), ("ch8", "n8"), ("ch9", "n9"), ("ch10", "n10")]

/-- An upstream oracle that fails exactly for channel `ch4`. -/
def oracleFail4 : String → Except Unit (Option ChannelDetails) :=
  fun cid => if cid = "ch4" then .error () else .ok none

/-- An upstream oracle that always succeeds (channel found, nothing else
relevant). -/
def oracleAllOk : String → Except Unit (Option ChannelDetails) :=
  fun _ => .ok none

/-- Counterexample for C2 as stated: with 10 channels of which exactly
`ch4`'s upstream call fails, `refreshAllChannelDetails` rejects (throws)
instead of returning 10 per-channel outcomes. -/
theorem c2_counterexample :
    channels10.length = 10 ∧
    refreshAllChannelDetails oracleFail4 channels10 = .error () := by
  exact ⟨rfl, rfl⟩

/-- Witness for C2's amended theorem: with every call succeeding the
result is the plain channel list. -/
theorem c2_witness :
    refreshAllChannelDetails oracleAllOk channels10 = .ok channels10 :=
  (c2_refreshAllOutcome oracleAllOk channels10).1 fun _ _ => ⟨none, rfl⟩

/- ------------------------------------------------------------------ -/
/- C5: /statistics cache-aside contract                                -/
/- ------------------------------------------------------------------ -/

/-- Claim C5 (corrected): the `/statistics` endpoint returns the cached
value verbatim with `source = "cache"` and no store read on a hit, and on
a miss recomputes the rollup, stores it with the fixed TTL of 3600
seconds, and returns it — but tagged `source = "database"`, not
`"computed"`. -/
theorem c5_statisticsCacheAside (db : DB) (cache : Option CacheEntry) (now : Nat) :
    (∀ d, kvGet cache now = some d →
      statisticsGet db cache now =
        { data := d, source := "cache", cache := cache, storeRead := false }) ∧
    (kvGet cache now = none →
      statisticsGet db cache now =
        { data := channelStatistics db, source := "database",
          cache := some { data := channelStatistics db, expiresAt := now + 3600 },
          storeRead := true }) := by
  constructor
  · intro d hd
    simp [statisticsGet, hd]
  · intro hd
    simp [statisticsGet, hd]

/-- Counterexample for C5 as stated: on a cache miss the source tag the
endpoint returns is `"database"`, never `"computed"`. -/
theorem c5_counterexample :
    (statisticsGet dbHistory none 0).source = "database" ∧
    (statisticsGet dbHistory none 0).source ≠ "computed" := by
  constructor
  · rfl
  · decide

/-- Witness for C5: the amended theorem applied on a concrete hit and a
concrete miss. -/
theorem c5_witness :
    statisticsGet dbNoSnap (some { data := [], expiresAt := 9 }) 3 =
      { data := [], source := "cache",
        cache := some { data := [], expiresAt := 9 }, storeRead := false } ∧
    statisticsGet dbNoSnap none 7 =
      { data := channelStatistics dbNoSnap, source := "database",
        cache := some { data := channelStatistics dbNoSnap, expiresAt := 3607 },
        storeRead := true } :=
  ⟨(c5_statisticsCacheAside dbNoSnap (some { data := [], expiresAt := 9 }) 3).1 [] rfl,
   (c5_statisticsCacheAside dbNoSnap none 7).2 rfl⟩

/- ------------------------------------------------------------------ -/
/- C6: cache invalidation on ingestion                                 -/
/- ------------------------------------------------------------------ -/

/-- Claim C6 (confirmed): whenever the `/` handler performs the snapshot
append (the only path that ingests new statistics snapshots, which is also
the 200-JSON path), the `channelStatistics` cache key has been deleted by
the time the request completes, so no later cache read — at any instant —
can return a rollup cached before this ingestion. -/
theorem c6_ingestionInvalidatesRollupCache (w : IngestWorld) (url : Option (List Char))
    (cache : Option CacheEntry) (q0 : Nat)
    (h : (ingestHandler w url cache q0).appended = true) :
    (ingestHandler w url cache q0).status = 200 ∧
    (ingestHandler w url cache q0).cache = none ∧
    ∀ now, kvGet (ingestHandler w url cache q0).cache now = none := by
  revert h
  unfold ingestHandler
  rcases url with _ | url
  · intro h; simp at h
  · dsimp only
    cases hx : extractUsername url with
    | none => intro h; simp at h
    | some u =>
        by_cases hc : channelDetailsComplete (getUploadsChannelDetail w).1 = true
        · simp only [hc, Bool.not_true, Bool.false_eq_true, if_false]
          cases hp : w.pages with
          | error k => intro h; simp at h
          | ok pages =>
              by_cases he : (getPlaylistVideos pages).1.isEmpty = true
              · simp only [he, if_true]; intro h; simp at h
              · simp only [he, Bool.false_eq_true, if_false]
                by_cases hi : w.insertsOk = true
                · simp only [hi, if_true]
                  intro _
                  simp [kvGet]
                · simp only [Bool.not_eq_true] at hi
                  simp only [hi, Bool.false_eq_true, if_false]
                  intro h; simp at h
        · simp only [Bool.not_eq_true] at hc
          simp only [hc, Bool.not_false, if_true]
          intro h; simp at h

/-- A complete channel-details record (every field truthy). -/
def goodDetails : ChannelDetails :=
  { uploads := some "u", id := some "i", customName := some "n",
    followersCount := some 1, viewsCount := some 2, videoCount := some 3,
    thumbnailHighUrl := some "th" }

/-- One playlist item. -/
def pageItem : VideoDetails := { videoId := "v", videoTitle := "t", thumbnailUrl := none }

/-- A world for a fully successful ingestion: channel resolved via API (1
lookup), two playlist pages of 51 + 50 items, all statistics batches
succeed, inserts succeed. -/
def wQuota : IngestWorld :=
  { dbChannel := none, apiChannel := .ok (some goodDetails),
    pages := .ok [List.replicate 51 pageItem, List.replicate 50 pageItem],
    statsOracle := fun _ => .ok [], insertsOk := true }

/-- Witness for C6: a successful concrete ingestion run on a warm cache
ends with the cache key deleted. -/
theorem c6_witness :
    (ingestHandler wQuota (some "@x".toList) (some { data := [], expiresAt := 999 }) 5).cache
      = none :=
  (c6_ingestionInvalidatesRollupCache wQuota (some "@x".toList)
    (some { data := [], expiresAt := 999 }) 5 (by decide)).2.1

/- ------------------------------------------------------------------ -/
/- C7: quota accounting                                                -/
/- ------------------------------------------------------------------ -/

lemma getVideoStatistics_cost (oracle : List String → Except Unit (List Snapshot))
    (ids : List String) :
    (getVideoStatistics oracle ids).cost =
      ((chunkBatches ids).countP fun b => (oracle b).isOk) * QUOTA_COSTS.videosList := by
  simp only [getVideoStatistics, List.map_map, Function.comp]
  exact batchCost_sum oracle (chunkBatches ids)

/-- Claim C7 (confirmed): an ingestion run that resolves the channel with
1 upstream lookup, paginates 2 playlist pages and issues 3 statistics
batches (all successfully) accumulates a quota total of exactly
`1*channelListCost + 2*playlistListCost + 3*statisticsListCost`, starting
from the reset to zero at request entry (the incoming global value `q0` is
discarded), with the statistics cost independent of batch sizes. -/
theorem c7_quotaAccounting (w : IngestWorld) (url : List Char)
    (cache : Option CacheEntry) (q0 : Nat) (d : ChannelDetails)
    (pages : List (List VideoDetails))
    (hurl : (extractUsername url).isSome = true)
    (hdb : w.dbChannel = none)
    (hapi : w.apiChannel = .ok (some d))
    (hcomp : channelDetailsComplete d = true)
    (hpages : w.pages = .ok pages)
    (h2 : pages.length = 2)
    (hne : pages.flatten ≠ [])
    (h3 : (chunkBatches ((pages.flatten).map (·.videoId))).length = 3)
    (hok : ∀ b ∈ chunkBatches ((pages.flatten).map (·.videoId)),
      (w.statsOracle b).isOk = true) :
    (ingestHandler w (some url) cache q0).quota =
      1 * QUOTA_COSTS.channelsList + 2 * QUOTA_COSTS.playlistItemsList +
        3 * QUOTA_COSTS.videosList := by
  obtain ⟨u, hu⟩ := Option.isSome_iff_exists.mp hurl
  have hcd : getUploadsChannelDetail w = (d, QUOTA_COSTS.channelsList) := by
    simp [getUploadsChannelDetail, hdb, hapi]
  have hcost : (getVideoStatistics w.statsOracle ((pages.flatten).map (·.videoId))).cost =
      3 * QUOTA_COSTS.videosList := by
    rw [getVideoStatistics_cost]
    rw [List.countP_eq_length.mpr hok, h3]
  have hemp : pages.flatten.isEmpty = false := by
    simpa [List.isEmpty_iff] using hne
  unfold ingestHandler
  dsimp only
  rw [hu, hcd, hpages]
  dsimp only [getPlaylistVideos]
  simp only [hcomp, Bool.not_true, Bool.false_eq_true, if_false, hemp]
  rw [hcost, h2]
  by_cases hi : w.insertsOk = true
  · simp only [hi, if_true]
    simp [QUOTA_COSTS]
  · simp only [Bool.not_eq_true] at hi
    simp only [hi, Bool.false_eq_true, if_false]
    simp [QUOTA_COSTS]

/-- Witness for C7: the concrete run of `wQuota` (1 lookup, pages of
51 + 50 items, hence 3 batches over 101 ids) charges quota 6. -/
theorem c7_witness :
    (ingestHandler wQuota (some "@x".toList) none 77).quota = 6 := by
  have h := c7_quotaAccounting wQuota "@x".toList none 77 goodDetails
    [List.replicate 51 pageItem, List.replicate 50 pageItem]
    (by decide) rfl rfl (by decide) rfl rfl (by decide) (by decide)
    (fun b _ => rfl)
  simpa [QUOTA_COSTS] using h

/- ------------------------------------------------------------------ -/
/- C10: the truthiness completeness guard                              -/
/- ------------------------------------------------------------------ -/

lemma truthyStr_iff (o : Option String) :
    truthyStr o = true ↔ ∃ s, o = some s ∧ s ≠ "" := by
  cases o with
  | none => simp [truthyStr]
  | some s =>
      simp only [truthyStr, Bool.not_eq_true', Option.some.injEq]
      constructor
      · intro hf
        refine ⟨s, rfl, fun heq => ?_⟩
        subst heq
        exact absurd hf (by decide)
      · rintro ⟨t, rfl, hne⟩
        cases hs : s.isEmpty
        · rfl
        · exact absurd ((String.isEmpty_iff s).mp hs) hne

lemma truthyInt_iff (o : Option Int) :
    truthyInt o = true ↔ ∃ n, o = some n ∧ n ≠ 0 := by
  cases o with
  | none => simp [truthyInt]
  | some n => simp [truthyInt]

lemma channelDetailsComplete_iff (cd : ChannelDetails) :
    channelDetailsComplete cd = true ↔
      ((∃ s, cd.id = some s ∧ s ≠ "") ∧ (∃ s, cd.customName = some s ∧ s ≠ "") ∧
       (∃ s, cd.thumbnailHighUrl = some s ∧ s ≠ "") ∧ (∃ s, cd.uploads = some s ∧ s ≠ "") ∧
       (∃ n, cd.followersCount = some n ∧ n ≠ 0) ∧
       (∃ n, cd.videoCount = some n ∧ n ≠ 0) ∧
       (∃ n, cd.viewsCount = some n ∧ n ≠ 0)) := by
  simp only [channelDetailsComplete, Bool.and_eq_true, truthyStr_iff, truthyInt_iff]
  tauto

/-- Claim C10 (confirmed): because the completeness guard tests each field
for JS truthiness, a resolved descriptor with follower, view, or video
count equal to 0 fails the guard and the `/` handler answers
400 "Invalid input ..." without ingesting anything; in general the guard
passes exactly when all four string fields are present and non-empty and
all three counters are present and non-zero. -/
theorem c10_truthinessGuardRejectsZeroCounters (w : IngestWorld) (url : List Char)
    (cache : Option CacheEntry) (q0 : Nat)
    (hurl : (extractUsername url).isSome = true)
    (h0 : (getUploadsChannelDetail w).1.followersCount = some 0 ∨
          (getUploadsChannelDetail w).1.viewsCount = some 0 ∨
          (getUploadsChannelDetail w).1.videoCount = some 0) :
    channelDetailsComplete (getUploadsChannelDetail w).1 = false ∧
    (ingestHandler w (some url) cache q0).status = 400 ∧
    (ingestHandler w (some url) cache q0).body =
      "Invalid input (either a YouTube URL or a username is required)" ∧
    (ingestHandler w (some url) cache q0).appended = false ∧
    (∀ cd : ChannelDetails, channelDetailsComplete cd = true ↔
      ((∃ s, cd.id = some s ∧ s ≠ "") ∧ (∃ s, cd.customName = some s ∧ s ≠ "") ∧
       (∃ s, cd.thumbnailHighUrl = some s ∧ s ≠ "") ∧ (∃ s, cd.uploads = some s ∧ s ≠ "") ∧
       (∃ n, cd.followersCount = some n ∧ n ≠ 0) ∧
       (∃ n, cd.videoCount = some n ∧ n ≠ 0) ∧
       (∃ n, cd.viewsCount = some n ∧ n ≠ 0))) := by
  obtain ⟨u, hu⟩ := Option.isSome_iff_exists.mp hurl
  have hfalse : channelDetailsComplete (getUploadsChannelDetail w).1 = false := by
    cases hcc : channelDetailsComplete (getUploadsChannelDetail w).1 with
    | false => rfl
    | true =>
        exfalso
        obtain ⟨-, -, -, -, ⟨f, hf, hf0⟩, ⟨vc, hvc, hvc0⟩, ⟨vw, hvw, hvw0⟩⟩ :=
          (channelDetailsComplete_iff _).mp hcc
        rcases h0 with h | h | h
        · rw [h] at hf; exact hf0 (by injection hf; omega)
        · rw [h] at hvw; exact hvw0 (by injection hvw; omega)
        · rw [h] at hvc; exact hvc0 (by injection hvc; omega)
  refine ⟨hfalse, ?_, ?_, ?_, channelDetailsComplete_iff⟩ <;>
    · unfold ingestHandler
      dsimp only
      rw [hu]
      simp [hfalse]

/-- A descriptor that is complete except for a zero follower count. -/
def zeroFollowerDetails : ChannelDetails :=
  { goodDetails with followersCount := some 0 }

/-- A world resolving to `zeroFollowerDetails`. -/
def wZeroFollowers : IngestWorld :=
  { wQuota with apiChannel := .ok (some zeroFollowerDetails) }

/-- Witness for C10: a concrete channel with 0 subscribers is answered
with status 400. -/
theorem c10_witness :
    (ingestHandler wZeroFollowers (some "@x".toList) none 0).status = 400 :=
  (c10_truthinessGuardRejectsZeroCounters wZeroFollowers "@x".toList none 0
    (by decide) (Or.inl rfl)).2.1

/- ------------------------------------------------------------------ -/
/- C4: latest-snapshot resolution                                      -/
/- ------------------------------------------------------------------ -/

lemma foldr_max_mem (l : List Nat) (h : l ≠ []) : l.foldr Nat.max 0 ∈ l := by
  induction l with
  | nil => exact absurd rfl h
  | cons a t ih =>
      by_cases ht : t = []
      · subst ht; simp
      · have hm := ih ht
        simp only [List.foldr_cons]
        rcases Nat.le_total (t.foldr Nat.max 0) a with hle | hle
        · have he : a.max (t.foldr Nat.max 0) = a := Nat.max_eq_left hle
          rw [he]; exact List.mem_cons_self a t
        · have he : a.max (t.foldr Nat.max 0) = t.foldr Nat.max 0 := Nat.max_eq_right hle
          rw [he]; exact List.mem_cons_of_mem _ hm

lemma le_foldr_max (l : List Nat) (x : Nat) (hx : x ∈ l) : x ≤ l.foldr Nat.max 0 := by
  induction l with
  | nil => simp at hx
  | cons a t ih =>
      simp only [List.foldr_cons]
      rcases List.mem_cons.mp hx with rfl | hx'
      · exact Nat.le_max_left _ _
      · exact le_trans (ih hx') (Nat.le_max_right _ _)

lemma length_le_one_of_const_nodup (l : List Nat) (m : Nat)
    (hall : ∀ x ∈ l, x = m) (hnd : l.Nodup) : l.length ≤ 1 := by
  match l with
  | [] => simp
  | [a] => simp
  | a :: b :: t =>
      exfalso
      have ha : a = m := hall a (by simp)
      have hb : b = m := hall b (by simp)
      have := (List.nodup_cons.mp hnd).1
      exact this (by rw [ha, hb]; simp)

lemma selectedSnapshots_eq_filter (db : DB) (vid : String) :
    selectedSnapshots db vid =
      (db.stats.filter fun s => s.videoId = vid).filter
        fun s => s.recordedAt = latestRecordedAt db vid := by
  rw [List.filter_filter, selectedSnapshots]
  exact List.filter_congr fun s _ => by
    cases h1 : decide (s.videoId = vid) <;> cases h2 : decide (s.recordedAt = latestRecordedAt db vid) <;> rfl

/-- Claim C4 (corrected): for an item with at least one snapshot, the
latest-snapshot selection of the top-N queries keeps at least one row and
every kept row's `recordedAt` is ≥ every other snapshot of the item, but
it keeps exactly one row only when no two snapshots of the item share the
maximal `recordedAt` (on a tie every maximal row is kept). -/
theorem c4_latestSnapshotSelection (db : DB) (vid : String)
    (h : ∃ s ∈ db.stats, s.videoId = vid) :
    selectedSnapshots db vid ≠ [] ∧
    (∀ s ∈ selectedSnapshots db vid, ∀ t ∈ db.stats, t.videoId = vid →
        t.recordedAt ≤ s.recordedAt) ∧
    (((db.stats.filter fun s => s.videoId = vid).map (·.recordedAt)).Nodup →
        (selectedSnapshots db vid).length = 1) := by
  obtain ⟨s₀, hs₀, hsv⟩ := h
  have hg : s₀ ∈ db.stats.filter fun s => s.videoId = vid :=
    List.mem_filter.mpr ⟨hs₀, by simp [hsv]⟩
  have hmap : ((db.stats.filter fun s => s.videoId = vid).map (·.recordedAt)) ≠ [] := by
    simp only [ne_eq, List.map_eq_nil_iff]
    exact List.ne_nil_of_mem hg
  have hmem := foldr_max_mem _ hmap
  rw [show ((db.stats.filter fun s => s.videoId = vid).map (·.recordedAt)).foldr Nat.max 0 =
      latestRecordedAt db vid from rfl] at hmem
  obtain ⟨s₁, hs₁, hrec⟩ := List.mem_map.mp hmem
  have hs₁' := List.mem_filter.mp hs₁
  have hsel : s₁ ∈ selectedSnapshots db vid := by
    refine List.mem_filter.mpr ⟨hs₁'.1, ?_⟩
    have := hs₁'.2
    simp only [decide_eq_true_eq] at this
    simp [this, hrec]
  refine ⟨List.ne_nil_of_mem hsel, ?_, ?_⟩
  · intro s hs t ht htv
    have hsp := (List.mem_filter.mp hs).2
    simp only [Bool.and_eq_true, decide_eq_true_eq] at hsp
    rw [hsp.2]
    exact le_foldr_max _ _ (List.mem_map.mpr
      ⟨t, List.mem_filter.mpr ⟨ht, by simp [htv]⟩, rfl⟩)
  · intro hnd
    rw [selectedSnapshots_eq_filter]
    have hsub : List.Sublist
        (((db.stats.filter fun s => s.videoId = vid).filter
          fun s => s.recordedAt = latestRecordedAt db vid).map (·.recordedAt))
        ((db.stats.filter fun s => s.videoId = vid).map (·.recordedAt)) :=
      (List.filter_sublist _).map _
    have hle : (((db.stats.filter fun s => s.videoId = vid).filter
        fun s => s.recordedAt = latestRecordedAt db vid).map (·.recordedAt)).length ≤ 1 := by
      refine length_le_one_of_const_nodup _ (latestRecordedAt db vid) ?_ (hsub.nodup hnd)
      intro x hx
      obtain ⟨s, hs, rfl⟩ := List.mem_map.mp hx
      have := (List.mem_filter.mp hs).2
      simpa using this
    rw [List.length_map] at hle
    have hne : s₁ ∈ (db.stats.filter fun s => s.videoId = vid).filter
        fun s => s.recordedAt = latestRecordedAt db vid := by
      rw [← selectedSnapshots_eq_filter]; exact hsel
    have := List.length_pos.mpr (List.ne_nil_of_mem hne)
    omega

/-- Counterexample for C4 as stated: with two snapshots of the same item
tied at `recordedAt` = 5, the selection keeps two rows, not exactly one. -/
theorem c4_counterexample :
    (∃ s ∈ dbTie.stats, s.videoId = "v1") ∧
    (selectedSnapshots dbTie "v1").length = 2 := by
  exact ⟨⟨mkSnap 10 5, by decide, rfl⟩, by decide⟩

/-- Witness for C4: on `dbHistory` (snapshots at t=1 and t=3) the
selection is nonempty. -/
theorem c4_witness : selectedSnapshots dbHistory "v1" ≠ [] :=
  (c4_latestSnapshotSelection dbHistory "v1" ⟨mkSnap 10 1, by decide, rfl⟩).1

/- ------------------------------------------------------------------ -/
/- C3: items with zero snapshots                                       -/
/- ------------------------------------------------------------------ -/

/-- Claim C3 (corrected): an item with zero snapshots is omitted entirely
from the top-N ranking row set (the `WHERE` clause on the left-joined
latest-snapshot condition filters it out), for any metric field and any
limit; the per-channel query, in contrast, still reports the item — with
an empty statistics list, not zeroed fields. -/
theorem c3_zeroSnapshotItemHandling (db : DB) (v : VideoRow) (lim : Nat)
    (hv : v ∈ db.videos)
    (h0 : db.stats.filter (fun s => s.videoId = v.id) = []) :
    (∀ field : Snapshot → Option Int, ∀ row ∈ topQuery db field lim, row.videoId ≠ v.id) ∧
    (v, ([] : List Snapshot)) ∈ channelVideosWithStats db v.channelId := by
  constructor
  · intro field row hrow
    have hrow' : row ∈ topRowsBy db field := by
      have h1 : row ∈ (topRowsBy db field).mergeSort fun a b => b.metric ≤ a.metric :=
        List.take_subset _ _ hrow
      exact (List.mergeSort_perm (topRowsBy db field) _).mem_iff.mp h1
    obtain ⟨v', hv', hrow2⟩ := List.mem_flatMap.mp hrow'
    obtain ⟨s, hs, rfl⟩ := List.mem_map.mp hrow2
    intro heq
    dsimp at heq
    have hs2 := List.mem_filter.mp hs
    have hsin : s ∈ db.stats.filter fun t => t.videoId = v.id := by
      refine List.mem_filter.mpr ⟨hs2.1, ?_⟩
      have hp := hs2.2
      simp only [Bool.and_eq_true, decide_eq_true_eq] at hp
      simp [hp.1, ← heq]
    rw [h0] at hsin
    simp at hsin
  · unfold channelVideosWithStats
    refine List.mem_map.mpr ⟨v, List.mem_filter.mpr ⟨hv, by simp⟩, ?_⟩
    have hnil : ((db.stats.filter fun s =>
        ((db.videos.filter fun w => w.channelId = v.channelId).map (·.id)).contains
          s.videoId).filter fun s => s.videoId = v.id) = [] := by
      rw [List.filter_filter]
      refine List.filter_eq_nil_iff.mpr ?_
      intro s hs hcontra
      simp only [Bool.and_eq_true, decide_eq_true_eq] at hcontra
      have := List.filter_eq_nil_iff.mp h0 s hs
      simp [hcontra.1] at this
    rw [hnil]

/-- Counterexample for C3 as stated: with one item and zero snapshots the
top-views query returns no row at all for it. -/
theorem c3_counterexample :
    dbNoSnap.videos = [exVideo] ∧
    topQuery dbNoSnap (fun s => s.viewCount) 5 = [] := by
  refine ⟨rfl, ?_⟩
  have h : topRowsBy dbNoSnap (fun s => s.viewCount) = [] := rfl
  unfold topQuery
  rw [h, List.mergeSort_nil]
  rfl

/-- Witness for C3: the per-channel query of the concrete store reports
the snapshot-less item with an empty statistics list. -/
theorem c3_witness :
    (exVideo, ([] : List Snapshot)) ∈ channelVideosWithStats dbNoSnap "c1" :=
  (c3_zeroSnapshotItemHandling dbNoSnap exVideo 5 (by decide) rfl).2

/- ------------------------------------------------------------------ -/
/- C1: the /statistics rollup sums whole snapshot histories             -/
/- ------------------------------------------------------------------ -/

/-- The statistic a join row contributes to the running totals: `f` of its
snapshot when the row carries one, else 0 (the `if (row.statistics)` skip). -/
def rowStat (f : Snapshot → Int)
    (row : ChannelRow × Option (VideoRow × Option Snapshot)) : Int :=
  match row.2 with
  | some (_, some s) => f s
  | _ => 0

/-- The (totalLikes, totalComments) of the rollup entry the aggregation
holds for channel `cid`, if present. -/
def totalsFor (acc : List ChannelRollup) (cid : String) : Option (Int × Int) :=
  (acc.find? fun r => r.channelId = cid).map fun r => (r.totalLikes, r.totalComments)

/-- The sum of `f` over every snapshot of every item of channel `cid` —
the whole history, not just latest snapshots. -/
def historySum (db : DB) (cid : String) (f : Snapshot → Int) : Int :=
  (((db.videos.filter fun v => v.channelId = cid).flatMap fun v =>
    db.stats.filter fun s => s.videoId = v.id).map f).sum

/-- The sum of a row statistic over the rows of channel `cid`. -/
def rowsSum (rows : List (ChannelRow × Option (VideoRow × Option Snapshot)))
    (cid : String) (f : Snapshot → Int) : Int :=
  ((rows.filter fun row => row.1.id = cid).map (rowStat f)).sum

lemma bumpRollup_channelId (ch : ChannelRow) (s : Snapshot) (r : ChannelRollup) :
    (bumpRollup ch s r).channelId = r.channelId := by
  unfold bumpRollup
  split <;> rfl

lemma totalsFor_ensureEntry (acc : List ChannelRollup) (ch : ChannelRow) (cid : String) :
    totalsFor (ensureEntry acc ch) cid =
      if ch.id = cid then some ((totalsFor acc cid).getD (0, 0))
      else totalsFor acc cid := by
  unfold ensureEntry
  by_cases hany : (acc.any fun r => r.channelId = ch.id) = true
  · simp only [hany, if_true]
    by_cases hcid : ch.id = cid
    · subst hcid
      obtain ⟨r, hr, hpr⟩ := List.any_eq_true.mp hany
      have hex : ∃ x ∈ acc, (fun r : ChannelRollup => decide (r.channelId = ch.id)) x = true :=
        ⟨r, hr, hpr⟩
      have hsome : ((acc.find? fun r => r.channelId = ch.id)).isSome = true :=
        List.find?_isSome.mpr hex
      unfold totalsFor
      cases hf : acc.find? fun r => r.channelId = ch.id with
      | none => rw [hf] at hsome; simp at hsome
      | some r₀ => simp
    · simp [hcid]
  · simp only [Bool.not_eq_true] at hany
    simp only [hany, Bool.false_eq_true, if_false]
    unfold totalsFor
    rw [List.find?_append]
    by_cases hcid : ch.id = cid
    · subst hcid
      have hnone : (acc.find? fun r => r.channelId = ch.id) = none := by
        refine List.find?_eq_none.mpr ?_
        intro r hr hpr
        have hex : ∃ x ∈ acc, (fun r : ChannelRollup => decide (r.channelId = ch.id)) x = true :=
          ⟨r, hr, hpr⟩
        have := List.any_eq_true.mpr hex
        rw [hany] at this
        cases this
      rw [hnone]
      simp [zeroRollup]
    · have hone : (([zeroRollup ch]).find? fun r => r.channelId = cid) = none := by
        refine List.find?_eq_none.mpr ?_
        intro r hr hpr
        simp only [List.mem_singleton] at hr
        subst hr
        simp only [zeroRollup, decide_eq_true_eq] at hpr
        exact hcid hpr
      rw [hone, Option.or_none]
      simp [hcid]

lemma totalsFor_map_bump (acc : List ChannelRollup) (ch : ChannelRow) (s : Snapshot)
    (cid : String) :
    totalsFor (acc.map (bumpRollup ch s)) cid =
      (totalsFor acc cid).map fun ab =>
        if ch.id = cid then (ab.1 + likeOf s, ab.2 + commentOf s) else ab := by
  unfold totalsFor
  rw [List.find?_map]
  have hcomp : ((fun r : ChannelRollup => decide (r.channelId = cid)) ∘ bumpRollup ch s) =
      fun r : ChannelRollup => decide (r.channelId = cid) := by
    funext r
    simp [Function.comp, bumpRollup_channelId]
  rw [hcomp]
  cases hf : acc.find? fun r : ChannelRollup => decide (r.channelId = cid) with
  | none => rfl
  | some r₀ =>
      have hr₀ : r₀.channelId = cid := by simpa using List.find?_some hf
      by_cases hcid : ch.id = cid
      · have hb : r₀.channelId = ch.id := by rw [hr₀, hcid]
        simp [bumpRollup, hb, hcid]
      · have hb : ¬(r₀.channelId = ch.id) := by rw [hr₀]; exact fun hh => hcid hh.symm
        simp [bumpRollup, hb, hcid]

lemma totalsFor_applyRow (acc : List ChannelRollup)
    (row : ChannelRow × Option (VideoRow × Option Snapshot)) (cid : String) :
    totalsFor (applyStatisticsRow acc row) cid =
      if row.1.id = cid then
        some (((totalsFor acc cid).getD (0, 0)).1 + rowStat likeOf row,
              ((totalsFor acc cid).getD (0, 0)).2 + rowStat commentOf row)
      else totalsFor acc cid := by
  rcases row with ⟨ch, rest⟩
  match rest with
  | none =>
      show totalsFor (ensureEntry acc ch) cid = _
      rw [totalsFor_ensureEntry]
      by_cases hcid : ch.id = cid <;> simp [hcid, rowStat]
  | some (v, none) =>
      show totalsFor (ensureEntry acc ch) cid = _
      rw [totalsFor_ensureEntry]
      by_cases hcid : ch.id = cid <;> simp [hcid, rowStat]
  | some (v, some s) =>
      show totalsFor ((ensureEntry acc ch).map (bumpRollup ch s)) cid = _
      rw [totalsFor_map_bump, totalsFor_ensureEntry]
      by_cases hcid : ch.id = cid
      · simp [hcid, rowStat, likeOf, commentOf]
      · simp only [hcid, if_false]
        cases totalsFor acc cid <;> simp [hcid]

lemma totalsFor_foldl (rows : List (ChannelRow × Option (VideoRow × Option Snapshot)))
    (acc : List ChannelRollup) (cid : String) :
    totalsFor (rows.foldl applyStatisticsRow acc) cid =
      match totalsFor acc cid with
      | some ab => some (ab.1 + rowsSum rows cid likeOf, ab.2 + rowsSum rows cid commentOf)
      | none =>
          if rows.any fun row => row.1.id = cid then
            some (rowsSum rows cid likeOf, rowsSum rows cid commentOf)
          else none := by
  induction rows generalizing acc with
  | nil =>
      cases h : totalsFor acc cid <;> simp [h, rowsSum]
  | cons row rows ih =>
      rw [List.foldl_cons, ih, totalsFor_applyRow]
      by_cases hrow : row.1.id = cid
      · simp only [hrow, if_true]
        have hsumL : rowsSum (row :: rows) cid likeOf =
            rowStat likeOf row + rowsSum rows cid likeOf := by
          simp [rowsSum, List.filter_cons, hrow]
        have hsumC : rowsSum (row :: rows) cid commentOf =
            rowStat commentOf row + rowsSum rows cid commentOf := by
          simp [rowsSum, List.filter_cons, hrow]
        have hcond : ((row :: rows).any fun row => row.1.id = cid) = true := by
          simp [List.any_cons, hrow]
        cases h : totalsFor acc cid with
        | none =>
            simp only [h, Option.getD_none, hcond, if_true, hsumL, hsumC,
              Option.some.injEq, Prod.mk.injEq]
            constructor <;> ring
        | some ab =>
            simp only [h, Option.getD_some, hsumL, hsumC, Option.some.injEq,
              Prod.mk.injEq]
            constructor <;> ring
      · have hsumL : rowsSum (row :: rows) cid likeOf = rowsSum rows cid likeOf := by
          simp [rowsSum, List.filter_cons, hrow]
        have hsumC : rowsSum (row :: rows) cid commentOf = rowsSum rows cid commentOf := by
          simp [rowsSum, List.filter_cons, hrow]
        have hany2 : ((row :: rows).any fun row => row.1.id = cid) =
            (rows.any fun row => row.1.id = cid) := by
          simp [List.any_cons, hrow]
        simp only [hrow, if_false, hsumL, hsumC, hany2]

lemma channelBlock_fst (db : DB) (ch : ChannelRow) :
    ∀ row ∈ channelBlock db ch, row.1 = ch := by
  intro row hrow
  unfold channelBlock at hrow
  by_cases hv : (db.videos.filter fun v => v.channelId = ch.id).isEmpty = true
  · simp only [hv, if_true] at hrow
    simp only [List.mem_singleton] at hrow
    rw [hrow]
  · simp only [hv, Bool.false_eq_true, if_false] at hrow
    obtain ⟨v, hvm, hrow2⟩ := List.mem_flatMap.mp hrow
    by_cases hs : (db.stats.filter fun s => s.videoId = v.id).isEmpty = true
    · simp only [hs, if_true, List.mem_singleton] at hrow2
      rw [hrow2]
    · simp only [hs, Bool.false_eq_true, if_false, List.mem_map] at hrow2
      obtain ⟨stt, hst, hback⟩ := hrow2
      rw [← hback]

lemma channelBlock_ne_nil (db : DB) (ch : ChannelRow) : channelBlock db ch ≠ [] := by
  unfold channelBlock
  by_cases hv : (db.videos.filter fun v => v.channelId = ch.id).isEmpty = true
  · simp [hv]
  · simp only [hv, Bool.false_eq_true, if_false]
    intro hnil
    have hvne : (db.videos.filter fun v => v.channelId = ch.id) ≠ [] := by
      intro hh
      rw [hh] at hv
      exact hv rfl
    obtain ⟨v, hvm⟩ := List.exists_mem_of_ne_nil _ hvne
    have hinner := List.flatMap_eq_nil_iff.mp hnil v hvm
    by_cases hs : (db.stats.filter fun s => s.videoId = v.id).isEmpty = true
    · simp only [hs, if_true] at hinner
      cases hinner
    · simp only [hs, Bool.false_eq_true, if_false, List.map_eq_nil_iff] at hinner
      rw [hinner] at hs
      exact hs rfl

lemma block_sum (db : DB) (ch : ChannelRow) (f : Snapshot → Int) :
    ((channelBlock db ch).map (rowStat f)).sum = historySum db ch.id f := by
  unfold channelBlock historySum
  by_cases hv : (db.videos.filter fun v => v.channelId = ch.id).isEmpty = true
  · rw [List.isEmpty_iff] at hv
    rw [hv]
    simp [rowStat]
  · simp only [hv, Bool.false_eq_true, if_false]
    rw [List.map_flatMap, List.map_flatMap]
    rw [List.flatMap, List.flatMap, List.sum_flatten, List.sum_flatten, List.map_map,
      List.map_map]
    congr 1
    refine List.map_congr_left fun v _ => ?_
    simp only [Function.comp]
    by_cases hs : (db.stats.filter fun s => s.videoId = v.id).isEmpty = true
    · rw [List.isEmpty_iff] at hs
      rw [hs]
      simp [rowStat]
    · simp only [hs, Bool.false_eq_true, if_false, List.map_map]
      rfl

lemma flatMap_filter_block (db : DB) :
    ∀ (chs : List ChannelRow), (chs.map (·.id)).Nodup → ∀ ch ∈ chs,
      (chs.flatMap (channelBlock db)).filter (fun row => row.1.id = ch.id) =
        channelBlock db ch := by
  intro chs
  induction chs with
  | nil => intro _ ch hch; simp at hch
  | cons c rest ih =>
      intro hnd ch hch
      rw [List.map_cons] at hnd
      have hnc := List.nodup_cons.mp hnd
      rw [List.flatMap_cons, List.filter_append]
      rcases List.mem_cons.mp hch with rfl | hmem
      · have h1 : (channelBlock db ch).filter (fun row => row.1.id = ch.id) =
            channelBlock db ch :=
          List.filter_eq_self.mpr fun row hrow => by
            rw [channelBlock_fst db ch row hrow]
            simp
        have h2 : ((rest.flatMap (channelBlock db)).filter
            fun row => row.1.id = ch.id) = [] := by
          refine List.filter_eq_nil_iff.mpr ?_
          intro row hrow
          obtain ⟨c', hc', hrow'⟩ := List.mem_flatMap.mp hrow
          rw [channelBlock_fst db c' row hrow']
          have hni := hnc.1
          simp only [decide_eq_true_eq]
          intro heq
          exact hni (heq ▸ List.mem_map_of_mem (fun x : ChannelRow => x.id) hc')
        rw [h1, h2, List.append_nil]
      · have hni := hnc.1
        have hcne : ¬(c.id = ch.id) := by
          intro heq
          exact hni (heq ▸ List.mem_map_of_mem (fun x : ChannelRow => x.id) hmem)
        have h1 : (channelBlock db c).filter (fun row => row.1.id = ch.id) = [] :=
          List.filter_eq_nil_iff.mpr fun row hrow => by
            rw [channelBlock_fst db c row hrow]
            simpa using hcne
        rw [h1, List.nil_append, ih hnc.2 ch hmem]

/-- Claim C1 (corrected): the `/statistics` rollup entry of every known
channel exists (channels with zero items included, with zero sums) and its
`totalLikes`/`totalComments` are the sums of the parsed like/comment
counts over EVERY snapshot in the history of the channel's items — the
join has no latest-snapshot restriction, so each item contributes its
whole snapshot history, not only the snapshot with maximal `recordedAt`. -/
theorem c1_rollupSumsWholeHistory (db : DB) (ch : ChannelRow)
    (hnd : (db.channels.map (·.id)).Nodup) (hch : ch ∈ db.channels) :
    totalsFor (channelStatistics db) ch.id =
      some (historySum db ch.id likeOf, historySum db ch.id commentOf) := by
  have hfilter := flatMap_filter_block db db.channels hnd ch hch
  have hany : ((statisticsJoinRows db).any fun row => row.1.id = ch.id) = true := by
    obtain ⟨row, hrow⟩ := List.exists_mem_of_ne_nil _ (channelBlock_ne_nil db ch)
    refine List.any_eq_true.mpr ⟨row, List.mem_flatMap.mpr ⟨ch, hch, hrow⟩, ?_⟩
    rw [channelBlock_fst db ch row hrow]
    simp
  have hsumL : rowsSum (statisticsJoinRows db) ch.id likeOf =
      historySum db ch.id likeOf := by
    unfold rowsSum statisticsJoinRows
    rw [hfilter]
    exact block_sum db ch likeOf
  have hsumC : rowsSum (statisticsJoinRows db) ch.id commentOf =
      historySum db ch.id commentOf := by
    unfold rowsSum statisticsJoinRows
    rw [hfilter]
    exact block_sum db ch commentOf
  have hfold := totalsFor_foldl (statisticsJoinRows db) [] ch.id
  have h0 : totalsFor [] ch.id = none := rfl
  rw [h0] at hfold
  simp only [hany, if_true, hsumL, hsumC] at hfold
  exact hfold

/-- Modelled from the spec (§3 and §4.6), for comparison with the code's
rollup: the claim's latest-only total — for each item of the channel, the
like count of the snapshot(s) with maximum `recordedAt` only, summed over
the channel's items. -/
def specLatestTotalLikes (db : DB) (cid : String) : Int :=
  ((db.videos.filter fun v => v.channelId = cid).map fun v =>
    ((selectedSnapshots db v.id).map likeOf).sum).sum

/-- Counterexample for C1 as stated: on a store where one item has
snapshots with likes 10 (t=1) and likes 30 (t=3), the endpoint's rollup
reports totalLikes = 40 (the whole history), while the latest-snapshot
value the claim prescribes is 30. -/
theorem c1_counterexample :
    totalsFor (channelStatistics dbHistory) "c1" = some (40, 2) ∧
    specLatestTotalLikes dbHistory "c1" = 30 ∧
    ¬((40 : Int) = 30) := by
  refine ⟨by decide, by decide, by decide⟩

/-- Witness for C1's amended theorem at the concrete store: the rollup
entry of channel c1 carries the whole-history sums (40 likes, 2 comments). -/
theorem c1_witness :
    totalsFor (channelStatistics dbHistory) "c1" = some (40, 2) ∧
    (40 : Int) = historySum dbHistory "c1" likeOf :=
  ⟨(c1_rollupSumsWholeHistory dbHistory exChannel (by decide) (by decide)).trans
    (by decide), by decide⟩

/- ------------------------------------------------------------------ -/
/- C9: the identifier parser                                           -/
/- ------------------------------------------------------------------ -/

lemma dropLit_eq_some (p : List Char) :
    ∀ (cs r : List Char), dropLit p cs = some r ↔ cs = p ++ r := by
  induction p with
  | nil => intro cs r; simp [dropLit]
  | cons a ps ih =>
      intro cs r
      cases cs with
      | nil => simp [dropLit]
      | cons c cs' =>
          simp only [dropLit]
          by_cases hc : c = a
          · simp [hc, ih]
          · simp [hc]

lemma isEmpty_false_iff (l : List Char) : l.isEmpty = false ↔ l ≠ [] := by
  constructor
  · intro hf heq
    subst heq
    cases hf
  · intro hne
    cases hl : l.isEmpty
    · rfl
    · exact absurd (List.isEmpty_iff.mp hl) hne

lemma lit_http : "http".toList = ['h', 't', 't', 'p'] := rfl
lemma lit_s : "s".toList = ['s'] := rfl
lemma lit_sep : "://".toList = [':', '/', '/'] := rfl
lemma lit_www : "www.".toList = ['w', 'w', 'w', '.'] := rfl
lemma lit_host : "youtube.com/".toList =
  ['y', 'o', 'u', 't', 'u', 'b', 'e', '.', 'c', 'o', 'm', '/'] := rfl
lemma lit_cslash : "c/".toList = ['c', '/'] := rfl
lemma lit_user : "user/".toList = ['u', 's', 'e', 'r', '/'] := rfl
lemma lit_http_scheme : "http://".toList = "http".toList ++ "://".toList := rfl
lemma lit_https_scheme :
    "https://".toList = "http".toList ++ ("s".toList ++ "://".toList) := rfl

lemma channelFormB_iff (rest : List Char) :
    channelFormB rest = true ↔ ChannelIdTail rest := by
  unfold channelFormB ChannelIdTail
  cases h : dropLit "channel/UC".toList rest with
  | none =>
      simp only [Bool.false_eq_true, false_iff]
      rintro ⟨core, hcore, -⟩
      have h2 := (dropLit_eq_some _ rest core).mpr hcore
      rw [h] at h2
      cases h2
  | some core =>
      constructor
      · intro hb
        simp only [Bool.and_eq_true, decide_eq_true_eq, List.all_eq_true] at hb
        exact ⟨core, (dropLit_eq_some _ rest core).mp h, hb.1.1, hb.1.2, hb.2⟩
      · rintro ⟨core', hrest, hlen, hid, htr⟩
        have h2 := (dropLit_eq_some _ rest core').mpr hrest
        rw [h] at h2
        injection h2 with h2
        subst h2
        simp only [Bool.and_eq_true, decide_eq_true_eq, List.all_eq_true]
        exact ⟨⟨hlen, hid⟩, htr⟩

lemma handleFormB_iff (rest : List Char) :
    handleFormB rest = true ↔ HandleTail rest := by
  unfold handleFormB HandleTail
  cases h1 : dropLit "c/".toList rest with
  | some hh =>
      have hA : rest = "c/".toList ++ hh := (dropLit_eq_some _ rest hh).mp h1
      constructor
      · intro hb
        simp only [Bool.and_eq_true, Bool.not_eq_true', List.all_eq_true] at hb
        exact ⟨"c/".toList, hh, Or.inl rfl, hA, (isEmpty_false_iff hh).mp hb.1, hb.2⟩
      · rintro ⟨p, h', hpor, hrest, hne, hall⟩
        rcases hpor with rfl | rfl | rfl
        · have h2 := (dropLit_eq_some _ rest h').mpr hrest
          rw [h1] at h2
          injection h2 with h2
          subst h2
          simp only [Bool.and_eq_true, Bool.not_eq_true', List.all_eq_true]
          exact ⟨(isEmpty_false_iff hh).mpr hne, hall⟩
        · rw [hrest, lit_user, lit_cslash] at hA
          injection hA with hA1 _
          exact absurd hA1 (by decide)
        · rw [List.nil_append] at hrest
          subst hrest
          rw [lit_cslash] at hA
          have hmem : '/' ∈ rest := by rw [hA]; simp
          have := hall '/' hmem
          exact absurd this (by decide)
  | none =>
      cases h2 : dropLit "user/".toList rest with
      | some hh =>
          have hA : rest = "user/".toList ++ hh := (dropLit_eq_some _ rest hh).mp h2
          constructor
          · intro hb
            simp only [Bool.and_eq_true, Bool.not_eq_true', List.all_eq_true] at hb
            exact ⟨"user/".toList, hh, Or.inr (Or.inl rfl), hA,
              (isEmpty_false_iff hh).mp hb.1, hb.2⟩
          · rintro ⟨p, h', hpor, hrest, hne, hall⟩
            rcases hpor with rfl | rfl | rfl
            · have h3 := (dropLit_eq_some _ rest h').mpr hrest
              rw [h1] at h3
              cases h3
            · have h3 := (dropLit_eq_some _ rest h').mpr hrest
              rw [h2] at h3
              injection h3 with h3
              subst h3
              simp only [Bool.and_eq_true, Bool.not_eq_true', List.all_eq_true]
              exact ⟨(isEmpty_false_iff hh).mpr hne, hall⟩
            · rw [List.nil_append] at hrest
              subst hrest
              rw [lit_user] at hA
              have hmem : '/' ∈ rest := by rw [hA]; simp
              have := hall '/' hmem
              exact absurd this (by decide)
      | none =>
          constructor
          · intro hb
            simp only [Bool.and_eq_true, Bool.not_eq_true', List.all_eq_true] at hb
            exact ⟨[], rest, Or.inr (Or.inr rfl), (List.nil_append rest).symm,
              (isEmpty_false_iff rest).mp hb.1, hb.2⟩
          · rintro ⟨p, h', hpor, hrest, hne, hall⟩
            rcases hpor with rfl | rfl | rfl
            · have h3 := (dropLit_eq_some _ rest h').mpr hrest
              rw [h1] at h3
              cases h3
            · have h3 := (dropLit_eq_some _ rest h').mpr hrest
              rw [h2] at h3
              cases h3
            · rw [List.nil_append] at hrest
              subst hrest
              simp only [Bool.and_eq_true, Bool.not_eq_true', List.all_eq_true]
              exact ⟨(isEmpty_false_iff rest).mpr hne, hall⟩

lemma matchGroup2_isSome_iff (rest : List Char) :
    (matchGroup2 rest).isSome = true ↔ (ChannelIdTail rest ∨ HandleTail rest) := by
  constructor
  · intro hs
    unfold matchGroup2 at hs
    by_cases hcond : (channelFormB rest || handleFormB rest) = true
    · rcases Bool.or_eq_true_iff.mp hcond with hf | hf
      · exact Or.inl ((channelFormB_iff rest).mp hf)
      · exact Or.inr ((handleFormB_iff rest).mp hf)
    · rw [if_neg hcond] at hs
      cases hs
  · intro hforms
    unfold matchGroup2
    have hcond : (channelFormB rest || handleFormB rest) = true := by
      rcases hforms with hf | hf
      · exact Bool.or_eq_true_iff.mpr (Or.inl ((channelFormB_iff rest).mpr hf))
      · exact Bool.or_eq_true_iff.mpr (Or.inr ((handleFormB_iff rest).mpr hf))
    rw [if_pos hcond]
    rfl

lemma matchHost_isSome_iff (r3 : List Char) :
    (matchHost r3).isSome = true ↔
      ∃ www rest : List Char, (www = [] ∨ www = "www.".toList) ∧
        r3 = www ++ "youtube.com/".toList ++ rest ∧
        (ChannelIdTail rest ∨ HandleTail rest) := by
  unfold matchHost
  cases h4 : dropLit "www.".toList r3 with
  | none =>
      dsimp only
      cases h5 : dropLit "youtube.com/".toList r3 with
      | none =>
          simp only [Option.isSome_none, Bool.false_eq_true, false_iff]
          rintro ⟨www, rest, hw, heq, -⟩
          rcases hw with rfl | rfl
          · rw [List.nil_append] at heq
            have h6 := (dropLit_eq_some _ r3 rest).mpr heq
            rw [h5] at h6
            cases h6
          · have h6 := (dropLit_eq_some _ r3
                ("youtube.com/".toList ++ rest)).mpr (by rw [heq, List.append_assoc])
            rw [h4] at h6
            cases h6
      | some rest =>
          rw [matchGroup2_isSome_iff]
          constructor
          · intro hforms
            exact ⟨[], rest, Or.inl rfl,
              by rw [List.nil_append]; exact (dropLit_eq_some _ r3 rest).mp h5, hforms⟩
          · rintro ⟨www, rest', hw, heq, hforms⟩
            rcases hw with rfl | rfl
            · rw [List.nil_append] at heq
              have h6 := (dropLit_eq_some _ r3 rest').mpr heq
              rw [h5] at h6
              injection h6 with h6
              rw [h6]
              exact hforms
            · have h6 := (dropLit_eq_some _ r3 ("youtube.com/".toList ++ rest')).mpr
                (by rw [heq, List.append_assoc])
              rw [h4] at h6
              cases h6
  | some r4 =>
      dsimp only
      have hr3 : r3 = "www.".toList ++ r4 := (dropLit_eq_some _ r3 r4).mp h4
      cases h5 : dropLit "youtube.com/".toList r4 with
      | none =>
          simp only [Option.isSome_none, Bool.false_eq_true, false_iff]
          rintro ⟨www, rest, hw, heq, -⟩
          rcases hw with rfl | rfl
          · rw [List.nil_append, hr3, lit_www, lit_host] at heq
            injection heq with hx _
            exact absurd hx (by decide)
          · rw [hr3, List.append_assoc] at heq
            have hr4 : r4 = "youtube.com/".toList ++ rest := List.append_cancel_left heq
            have h6 := (dropLit_eq_some _ r4 rest).mpr hr4
            rw [h5] at h6
            cases h6
      | some rest =>
          rw [matchGroup2_isSome_iff]
          have hr4 : r4 = "youtube.com/".toList ++ rest := (dropLit_eq_some _ r4 rest).mp h5
          constructor
          · intro hforms
            exact ⟨"www.".toList, rest, Or.inr rfl,
              by rw [hr3, hr4, List.append_assoc], hforms⟩
          · rintro ⟨www, rest', hw, heq, hforms⟩
            rcases hw with rfl | rfl
            · rw [List.nil_append, hr3, lit_www, lit_host] at heq
              injection heq with hx _
              exact absurd hx (by decide)
            · rw [hr3, List.append_assoc] at heq
              have hr4' : r4 = "youtube.com/".toList ++ rest' := List.append_cancel_left heq
              rw [hr4] at hr4'
              have hre := List.append_cancel_left hr4'
              rw [← hre] at hforms
              exact hforms

lemma matchUrl_isSome_iff (cs : List Char) :
    (matchUrl cs).isSome = true ↔ RecognizedUrl cs := by
  unfold matchUrl RecognizedUrl
  cases h1 : dropLit "http".toList cs with
  | none =>
      dsimp only
      simp only [Option.isSome_none, Bool.false_eq_true, false_iff]
      rintro ⟨scheme, www, rest, hs, hw, heq, -⟩
      rcases hs with rfl | rfl
      · have h6 := (dropLit_eq_some "http".toList cs
            ("://".toList ++ (www ++ ("youtube.com/".toList ++ rest)))).mpr
          (by simp [heq, lit_http_scheme, List.append_assoc])
        rw [h1] at h6
        cases h6
      · have h6 := (dropLit_eq_some "http".toList cs
            ("s".toList ++ ("://".toList ++ (www ++ ("youtube.com/".toList ++ rest))))).mpr
          (by simp [heq, lit_https_scheme, List.append_assoc])
        rw [h1] at h6
        cases h6
  | some r1 =>
      dsimp only
      have hcs : cs = "http".toList ++ r1 := (dropLit_eq_some _ cs r1).mp h1
      cases h2 : dropLit "s".toList r1 with
      | none =>
          dsimp only
          cases h3 : dropLit "://".toList r1 with
          | none =>
              simp only [Option.isSome_none, Bool.false_eq_true, false_iff]
              rintro ⟨scheme, www, rest, hs, hw, heq, -⟩
              rcases hs with rfl | rfl
              · rw [hcs, lit_http_scheme] at heq
                simp only [List.append_assoc] at heq
                have hr1 := List.append_cancel_left heq
                have h6 := (dropLit_eq_some _ r1 _).mpr hr1
                rw [h3] at h6
                cases h6
              · rw [hcs, lit_https_scheme] at heq
                simp only [List.append_assoc] at heq
                have hr1 := List.append_cancel_left heq
                have h6 := (dropLit_eq_some _ r1 _).mpr hr1
                rw [h2] at h6
                cases h6
          | some r3 =>
              rw [matchHost_isSome_iff]
              have hr1 : r1 = "://".toList ++ r3 := (dropLit_eq_some _ r1 r3).mp h3
              constructor
              · rintro ⟨www, rest, hw, heq3, hforms⟩
                refine ⟨"http://".toList, www, rest, Or.inl rfl, hw, ?_, hforms⟩
                rw [hcs, hr1, heq3, lit_http_scheme]
                simp [List.append_assoc]
              · rintro ⟨scheme, www, rest, hs, hw, heq, hforms⟩
                rcases hs with rfl | rfl
                · rw [hcs, lit_http_scheme] at heq
                  simp only [List.append_assoc] at heq
                  have hx := List.append_cancel_left heq
                  rw [hr1] at hx
                  have hr3 := List.append_cancel_left hx
                  refine ⟨www, rest, hw, ?_, hforms⟩
                  rw [hr3]
                  simp [List.append_assoc]
                · rw [hcs, lit_https_scheme] at heq
                  simp only [List.append_assoc] at heq
                  have hx := List.append_cancel_left heq
                  have h6 := (dropLit_eq_some _ r1 _).mpr hx
                  rw [h2] at h6
                  cases h6
      | some r2 =>
          dsimp only
          have hr1 : r1 = "s".toList ++ r2 := (dropLit_eq_some _ r1 r2).mp h2
          cases h3 : dropLit "://".toList r2 with
          | none =>
              simp only [Option.isSome_none, Bool.false_eq_true, false_iff]
              rintro ⟨scheme, www, rest, hs, hw, heq, -⟩
              rcases hs with rfl | rfl
              · rw [hcs, lit_http_scheme] at heq
                simp only [List.append_assoc] at heq
                have hx := List.append_cancel_left heq
                rw [hr1, lit_s, lit_sep] at hx
                injection hx with hx1 _
                exact absurd hx1 (by decide)
              · rw [hcs, lit_https_scheme] at heq
                simp only [List.append_assoc] at heq
                have hx := List.append_cancel_left heq
                rw [hr1] at hx
                have hx2 := List.append_cancel_left hx
                have h6 := (dropLit_eq_some _ r2 _).mpr hx2
                rw [h3] at h6
                cases h6
          | some r3 =>
              rw [matchHost_isSome_iff]
              have hr2 : r2 = "://".toList ++ r3 := (dropLit_eq_some _ r2 r3).mp h3
              constructor
              · rintro ⟨www, rest, hw, heq3, hforms⟩
                refine ⟨"https://".toList, www, rest, Or.inr rfl, hw, ?_, hforms⟩
                rw [hcs, hr1, hr2, heq3, lit_https_scheme]
                simp [List.append_assoc]
              · rintro ⟨scheme, www, rest, hs, hw, heq, hforms⟩
                rcases hs with rfl | rfl
                · rw [hcs, lit_http_scheme] at heq
                  simp only [List.append_assoc] at heq
                  have hx := List.append_cancel_left heq
                  rw [hr1, lit_s, lit_sep] at hx
                  injection hx with hx1 _
                  exact absurd hx1 (by decide)
                · rw [hcs, lit_https_scheme] at heq
                  simp only [List.append_assoc] at heq
                  have hx := List.append_cancel_left heq
                  rw [hr1] at hx
                  have hx2 := List.append_cancel_left hx
                  rw [hr2] at hx2
                  have hr3 := List.append_cancel_left hx2
                  refine ⟨www, rest, hw, ?_, hforms⟩
                  rw [hr3]
                  simp [List.append_assoc]

/-- Claim C9 (confirmed): `extractUsername` is a total function that
resolves exactly the raw handles (inputs starting with `@`) and the URLs
of the fixed grammar (`http(s)://`, optional `www.`, `youtube.com/`, then
either `channel/UC` + 21 id characters + one of `A`,`Q`,`g`,`w`, or an
optional `c/`/`user/` marker followed by a nonempty handle token); for
every other input it returns `none` — the not-resolvable outcome — and
never crashes. -/
theorem c9_extractUsernameGrammar (s : List Char) :
    (extractUsername s).isSome = true ↔ (startsWithAt s = true ∨ RecognizedUrl s) := by
  unfold extractUsername
  by_cases hat : startsWithAt s = true
  · simp [hat]
  · rw [if_neg hat, matchUrl_isSome_iff]
    constructor
    · exact Or.inr
    · rintro (h | h)
      · exact absurd h hat
      · exact h

/-- Witness for C9: a raw handle resolves; a grammatical channel URL
resolves; a non-matching input does not. -/
theorem c9_witness :
    (extractUsername ('@' :: 'a' :: [])).isSome = true ∧
    (extractUsername "https://www.youtube.com/c/somename".toList).isSome = true ∧
    ¬((extractUsername "https://example.com/x".toList).isSome = true) := by
  refine ⟨(c9_extractUsernameGrammar _).mpr (Or.inl rfl), ?_, ?_⟩
  · exact (c9_extractUsernameGrammar _).mpr (Or.inr
      ⟨"https://".toList, "www.".toList, "c/somename".toList,
        Or.inr rfl, Or.inr rfl, rfl,
        Or.inr ⟨"c/".toList, "somename".toList, Or.inl rfl, rfl,
          by decide, by decide⟩⟩)
  · decide

end Mediasocial
